import Mathlib

/-!
Shallow embedding of the flashcard-content-generator repository
(`database.py`, `content_generator.py`, `service.py`) and proofs about it.

The SQLite database is modelled as an explicit state (`DB`): the two tables
are lists of rows kept in rowid order, AUTOINCREMENT row ids are the
`nextIdeaId` / `nextContentId` counters (starting at 1, as in SQLite), and
`CURRENT_TIMESTAMP` is a wall clock (`clock`) of coarse (second) granularity:
a write stamps the current clock value without advancing it, and time passes
through an explicit `Op.tick` environment action that advances the clock by
an arbitrary amount — possibly zero between two writes, so rows inserted in
the same second share a `created_at` value and only non-strict creation-time
order is guaranteed.  The OpenAI client is abstracted at the API-call
boundary: each wrapper in `content_generator.py` is embedded as a function of
the parsed response (or of an opaque call that may fail).
-/

namespace ContentGen

/-- A row of the `ideas` table (`database.py`, `init_database`). -/
structure IdeaRow where
  id : Nat
  topic : String
  description : String
  created_at : Nat
  content_generated : Bool
deriving Repr, DecidableEq

/-- A row of the `content` table (`database.py`, `init_database`). -/
structure ContentRow where
  id : Nat
  idea_id : Nat
  title : String
  content : String
  created_at : Nat
deriving Repr, DecidableEq

/-- The SQLite database state.  `ideas` and `contents` are in rowid order. -/
structure DB where
  ideas : List IdeaRow
  contents : List ContentRow
  nextIdeaId : Nat
  nextContentId : Nat
  clock : Nat
deriving Repr, DecidableEq

/-- A freshly initialised database (`init_database` on a new file): both
tables empty, AUTOINCREMENT counters at 1. -/
def initDB : DB := ⟨[], [], 1, 1, 0⟩

/-- Drop leading and trailing whitespace from a character list. -/
def stripChars (l : List Char) : List Char :=
  ((l.dropWhile Char.isWhitespace).reverse.dropWhile Char.isWhitespace).reverse

/-- Python `str.strip()`: remove leading and trailing whitespace. -/
def pyStrip (s : String) : String := ⟨stripChars s.data⟩

/-- `Database.add_idea(topic, description)`: INSERT of the stripped topic and
description; the UNIQUE constraint on `ideas.topic` makes the insert raise
`sqlite3.IntegrityError` when a row with the same (stripped) topic already
exists, which the method catches and converts to `None`.  Returns the new
rowid on success.  The new row's `created_at` is the current wall-clock
value (`CURRENT_TIMESTAMP`); the write itself does not advance the clock,
so an insert in the same second as an earlier one repeats its timestamp. -/
def add_idea (db : DB) (topic description : String) : Option Nat × DB :=
  let t := pyStrip topic
  let d := pyStrip description
  if db.ideas.any (fun r => r.topic == t) then
    (none, db)
  else
    (some db.nextIdeaId,
      { ideas := db.ideas ++ [⟨db.nextIdeaId, t, d, db.clock, false⟩]
        contents := db.contents
        nextIdeaId := db.nextIdeaId + 1
        nextContentId := db.nextContentId
        clock := db.clock })

/-- `Database.idea_exists(topic)`: `SELECT COUNT(*) FROM ideas WHERE topic = ?`
with the stripped topic; true iff the count is positive. -/
def idea_exists (db : DB) (topic : String) : Bool :=
  db.ideas.any (fun r => r.topic == pyStrip topic)

/-- The `ORDER BY created_at ASC` comparison. -/
def createdLe (a b : IdeaRow) : Prop := a.created_at ≤ b.created_at

instance : DecidableRel createdLe := fun a b => Nat.decLe a.created_at b.created_at

/-- The `ORDER BY created_at DESC` comparison. -/
def createdGe (a b : IdeaRow) : Prop := b.created_at ≤ a.created_at

instance : DecidableRel createdGe := fun a b => Nat.decLe b.created_at a.created_at

/-- A SQLite `LIMIT n` clause: a negative limit imposes no bound on the number
of returned rows. -/
def sqlLimit (n : Int) (rows : List IdeaRow) : List IdeaRow :=
  if n < 0 then rows else rows.take n.toNat

/-- `Database.get_pending_ideas(limit)`: rows with `content_generated = FALSE`
ordered by `created_at ASC`.  The Python guard `if limit:` appends the LIMIT
clause only when `limit` is neither `None` nor `0`, so a limit of 0 behaves
like no limit at all.  SQLite leaves the relative order of rows with equal
`created_at` unspecified; the stable insertion sort used here returns them
in rowid order, one of the permitted results, and no theorem below depends
on which tie order is produced. -/
def get_pending_ideas (db : DB) (limit : Option Int) : List IdeaRow :=
  let rows := List.insertionSort createdLe
    (db.ideas.filter (fun r => r.content_generated == false))
  match limit with
  | none => rows
  | some n => if n ≠ 0 then sqlLimit n rows else rows

/-- `Database.add_content(idea_id, title, content)`: inserts a content row and
sets `content_generated = TRUE` on the idea row in the same transaction
(single commit at the end).  The schema declares
`FOREIGN KEY (idea_id) REFERENCES ideas (id)`, but no connection ever issues
`PRAGMA foreign_keys = ON` and SQLite leaves foreign-key enforcement off by
default, so the insert also succeeds when no idea with this id exists. -/
def add_content (db : DB) (idea_id : Nat) (title content : String) : Nat × DB :=
  (db.nextContentId,
    { ideas := db.ideas.map
        (fun r => if r.id = idea_id then { r with content_generated := true } else r)
      contents := db.contents ++ [⟨db.nextContentId, idea_id, title, content, db.clock⟩]
      nextIdeaId := db.nextIdeaId
      nextContentId := db.nextContentId + 1
      clock := db.clock })

/-- `Database.get_all_ideas()`: every idea row, `ORDER BY created_at DESC`. -/
def get_all_ideas (db : DB) : List IdeaRow :=
  List.insertionSort createdGe db.ideas

/-- The record returned by `Database.get_stats()`. -/
structure Stats where
  total_ideas : Nat
  ideas_with_content : Nat
  pending_ideas : Nat
  total_content_pieces : Nat
deriving Repr, DecidableEq

/-- `Database.get_stats()`. -/
def get_stats (db : DB) : Stats :=
  { total_ideas := db.ideas.length
    ideas_with_content := (db.ideas.filter (fun r => r.content_generated == true)).length
    pending_ideas :=
      db.ideas.length - (db.ideas.filter (fun r => r.content_generated == true)).length
    total_content_pieces := db.contents.length }

/-- Number of content rows whose `idea_id` is `i` (a derived notion used to
state invariants; it is `SELECT COUNT(*) FROM content WHERE idea_id = i`). -/
def contentCountFor (db : DB) (i : Nat) : Nat :=
  (db.contents.filter (fun c => c.idea_id == i)).length

/-- The store mutations the service performs, plus the passage of wall-clock
time: `tick dt` advances `CURRENT_TIMESTAMP` by `dt` seconds between
operations.  A trace with no tick between two inserts models both commits
landing in the same second. -/
inductive Op where
  | addIdea (topic description : String)
  | addContent (ideaId : Nat) (title content : String)
  | tick (dt : Nat)
deriving Repr, DecidableEq

/-- Effect of one mutation (or clock advance) on the store. -/
def step (db : DB) : Op → DB
  | .addIdea t d => (add_idea db t d).2
  | .addContent i t c => (add_content db i t c).2
  | .tick dt => { db with clock := db.clock + dt }

/-- Run a sequence of mutations. -/
def applyOps (db : DB) (ops : List Op) : DB := ops.foldl step db

/-- A mutation is well-formed for the described flow when `add_content` only
targets an existing, still-pending idea (the service only calls it with ids
freshly returned by `get_pending_ideas`). -/
def okOp (db : DB) : Op → Bool
  | .addIdea _ _ => true
  | .addContent i _ _ => db.ideas.any (fun r => r.id == i && r.content_generated == false)
  | .tick _ => true

/-- A well-formed trace of store mutations. -/
def WFTrace : DB → List Op → Bool
  | _, [] => true
  | db, op :: rest => okOp db op && WFTrace (step db op) rest

/-! ### `content_generator.py` -/

/-- One entry of the ideas list parsed from the backend response: a JSON
object whose `topic` / `description` keys may be absent (the service reads
them with `idea.get(..., '')`). -/
structure RawIdea where
  topic? : Option String
  description? : Option String
deriving Repr, DecidableEq

/-- The parsed outcome of the `generate_ideas` API call: `failure` covers an
API exception as well as a `json.JSONDecodeError` (both return `[]`); `arr`
is a response that parsed to a bare JSON array; `obj` is a response that
parsed to a JSON object, carrying whatever lists sit under its `ideas`,
`topics` and `data` keys. -/
inductive IdeasResponse where
  | failure
  | arr (items : List RawIdea)
  | obj (ideasKey topicsKey dataKey : Option (List RawIdea))
deriving Repr, DecidableEq

/-- Python `x or y` for an optional list `x`: `x` is falsy when the key was
missing (`None`) or the list is empty. -/
def pyOrList (x : Option (List RawIdea)) (y : List RawIdea) : List RawIdea :=
  match x with
  | some l => if l.isEmpty then y else l
  | none => y

/-- Python slice `l[:n]`: the first `n` elements when `n ≥ 0`; a negative `n`
counts from the end, dropping the last `-n` elements. -/
def pySliceTo (l : List α) (n : Int) : List α :=
  if 0 ≤ n then l.take n.toNat else l.take (l.length - (-n).toNat)

/-- `ContentGenerator.generate_ideas(count, category)` as a function of the
parsed backend response.  The `category` argument only shapes the prompt sent
to the backend and is abstracted into `resp`.  On a dict response the code
takes `result.get('ideas') or result.get('topics') or result.get('data') or []`,
then returns `ideas[:count]`. -/
def generate_ideas (resp : IdeasResponse) (count : Int) : List RawIdea :=
  match resp with
  | .failure => []
  | .arr items => pySliceTo items count
  | .obj ideasKey topicsKey dataKey =>
      pySliceTo (pyOrList ideasKey (pyOrList topicsKey (pyOrList dataKey []))) count

/-- The similarity oracle behind `is_similar_topic`: the whole guarded region
(API call, `json.loads`, reading the `is_similar` field with a `false`
default).  `.error` models any exception raised inside the `try` block;
`.ok b` is the resulting verdict. -/
def Oracle := String → List String → Except String Bool

/-- `ContentGenerator.is_similar_topic(new_topic, existing_topics)`: returns
`false` outright when `existing_topics` is empty; otherwise consults the
oracle, converting any error into `false` (fail open).  The unused
`similarity_threshold` parameter is omitted. -/
def is_similar_topic (oracle : Oracle) (new_topic : String)
    (existing_topics : List String) : Bool :=
  if existing_topics.isEmpty then false
  else
    match oracle new_topic existing_topics with
    | .ok b => b
    | .error _ => false

/-- The article backend behind `generate_content(topic, description, 800)`:
`none` models any failure (API exception, JSON decode error, missing `title`
or `content` field); `some (title, content)` a well-formed article. -/
def ArticleBackend := String → String → Option (String × String)

/-! ### `service.py` -/

/-- The mutable state of one `generate_and_store_ideas` run: the store, the
`existing_topics` list and the two counters. -/
structure BatchState where
  db : DB
  existing : List String
  newCount : Nat
  dupCount : Nat
deriving Repr, DecidableEq

/-- Python truthiness of the optional rowid returned by `add_idea`
(`if idea_id:`): `None` and `0` are falsy. -/
def pyTruthyId (o : Option Nat) : Bool :=
  match o with
  | some i => i != 0
  | none => false

/-- Lines 101-108 of `service.py`: branch on the result of `add_idea`.  A
truthy id means the idea was inserted (append its topic to
`existing_topics`, bump `new_count`); otherwise the store rejected the
insert and the candidate counts as a duplicate. -/
def handleInsertResult (s : BatchState) (topic : String) (idea_id : Option Nat)
    (db' : DB) : BatchState :=
  if pyTruthyId idea_id then
    { db := db', existing := s.existing ++ [topic],
      newCount := s.newCount + 1, dupCount := s.dupCount }
  else
    { s with db := db', dupCount := s.dupCount + 1 }

/-- The per-candidate body of the loop in `generate_and_store_ideas`
(lines 78-108 of `service.py`): strip the topic, skip it when empty, reject
on exact match (`idea_exists`), reject on a positive similarity verdict,
otherwise insert and branch on the insert result. -/
def processCandidate (oracle : Oracle) (s : BatchState) (raw : RawIdea) : BatchState :=
  let topic := pyStrip (raw.topic?.getD "")
  let description := pyStrip (raw.description?.getD "")
  if topic == "" then s
  else if idea_exists s.db topic then { s with dupCount := s.dupCount + 1 }
  else if is_similar_topic oracle topic s.existing then { s with dupCount := s.dupCount + 1 }
  else
    let res := add_idea s.db topic description
    handleInsertResult s topic res.1 res.2

/-- Process a batch of candidates in arrival order. -/
def runBatch (oracle : Oracle) (s : BatchState) (l : List RawIdea) : BatchState :=
  l.foldl (processCandidate oracle) s

/-- `ContentGeneratorService.generate_and_store_ideas` as a function of the
already-generated candidate list: on an empty list return immediately;
otherwise seed `existing_topics` from `get_all_ideas` and process each
candidate in order. -/
def generate_and_store_ideas (oracle : Oracle) (db : DB)
    (rawIdeas : List RawIdea) : BatchState :=
  if rawIdeas.isEmpty then ⟨db, [], 0, 0⟩
  else
    runBatch oracle ⟨db, (get_all_ideas db).map (fun r => r.topic), 0, 0⟩ rawIdeas

/-- The per-idea body of the loop in `generate_and_store_content`
(lines 133-156 of `service.py`): on a well-formed article store it via
`add_content`; on `None` log and leave the store untouched. -/
def processPending (backend : ArticleBackend) (acc : DB × Nat) (idea : IdeaRow) :
    DB × Nat :=
  match backend idea.topic idea.description with
  | some tc => ((add_content acc.1 idea.id tc.1 tc.2).2, acc.2 + 1)
  | none => acc

/-- `ContentGeneratorService.generate_and_store_content`: fetch up to
`content_per_run` pending ideas (oldest first) and expand each in order,
returning the updated store and the `generated_count`. -/
def generate_and_store_content (backend : ArticleBackend) (db : DB)
    (content_per_run : Option Int) : DB × Nat :=
  let pending := get_pending_ideas db content_per_run
  if pending.isEmpty then (db, 0)
  else pending.foldl (processPending backend) (db, 0)

/-! ### Store invariants -/

/-- Rowid order: a later row carries a strictly larger id and a creation
time at least as large (same-second inserts tie on `created_at`). -/
def rowLt (a b : IdeaRow) : Prop := a.id < b.id ∧ a.created_at ≤ b.created_at

/-- Structural invariant of every reachable store state: `ideas` is in rowid
order with strictly increasing ids and non-decreasing creation times, ids
below the AUTOINCREMENT counter and creation times at most the clock. -/
def DBInv (db : DB) : Prop :=
  db.ideas.Pairwise rowLt
  ∧ (∀ r ∈ db.ideas, r.id < db.nextIdeaId ∧ r.created_at ≤ db.clock)
  ∧ 1 ≤ db.nextIdeaId

theorem dbInv_initDB : DBInv initDB := by
  refine ⟨List.Pairwise.nil, ?_, ?_⟩ <;> simp [initDB]

theorem add_idea_of_dup {db : DB} {t : String} (d : String)
    (h : db.ideas.any (fun r => r.topic == pyStrip t) = true) :
    add_idea db t d = (none, db) := by
  simp [add_idea, h]

theorem add_idea_of_new {db : DB} {t : String} (d : String)
    (h : db.ideas.any (fun r => r.topic == pyStrip t) = false) :
    add_idea db t d = (some db.nextIdeaId,
      { ideas := db.ideas ++ [⟨db.nextIdeaId, pyStrip t, pyStrip d, db.clock, false⟩]
        contents := db.contents
        nextIdeaId := db.nextIdeaId + 1
        nextContentId := db.nextContentId
        clock := db.clock }) := by
  simp [add_idea, h]

theorem flagSet_id (i : Nat) (r : IdeaRow) :
    ((if r.id = i then { r with content_generated := true } else r) : IdeaRow).id = r.id := by
  split <;> rfl

theorem flagSet_created (i : Nat) (r : IdeaRow) :
    ((if r.id = i then { r with content_generated := true } else r) : IdeaRow).created_at
      = r.created_at := by
  split <;> rfl

theorem dbInv_step (db : DB) (op : Op) (h : DBInv db) : DBInv (step db op) := by
  obtain ⟨hp, hb, hn⟩ := h
  cases op with
  | addIdea t d =>
    by_cases hc : db.ideas.any (fun r => r.topic == pyStrip t) = true
    · simp only [step, add_idea_of_dup d hc]
      exact ⟨hp, hb, hn⟩
    · rw [Bool.not_eq_true] at hc
      simp only [step, add_idea_of_new d hc]
      refine ⟨?_, ?_, ?_⟩
      · refine List.pairwise_append.2 ⟨hp, List.pairwise_singleton _ _, ?_⟩
        intro a ha b hbm
        rcases List.mem_singleton.1 hbm with rfl
        exact ⟨(hb a ha).1, (hb a ha).2⟩
      · intro r hr
        rcases List.mem_append.1 hr with hr' | hr'
        · exact ⟨Nat.lt_succ_of_lt (hb r hr').1, (hb r hr').2⟩
        · rcases List.mem_singleton.1 hr' with rfl
          exact ⟨Nat.lt_succ_self _, Nat.le_refl _⟩
      · exact Nat.le_succ_of_le hn
  | addContent i t c =>
    refine ⟨?_, ?_, hn⟩
    · refine List.pairwise_map.2 (hp.imp ?_)
      intro a b hab
      refine ⟨?_, ?_⟩
      · rw [flagSet_id i a, flagSet_id i b]; exact hab.1
      · rw [flagSet_created i a, flagSet_created i b]; exact hab.2
    · intro r hr
      rcases List.mem_map.1 hr with ⟨r0, hr0, rfl⟩
      rw [flagSet_id i r0, flagSet_created i r0]
      exact ⟨(hb r0 hr0).1, (hb r0 hr0).2⟩
  | tick dt =>
    refine ⟨hp, ?_, hn⟩
    intro r hr
    exact ⟨(hb r hr).1, Nat.le_trans (hb r hr).2 (Nat.le_add_right _ _)⟩

theorem dbInv_applyOps (db : DB) (ops : List Op) (h : DBInv db) :
    DBInv (applyOps db ops) := by
  induction ops generalizing db with
  | nil => exact h
  | cons op rest ih => exact ih (step db op) (dbInv_step db op h)

theorem row_eq_of_id_eq {l : List IdeaRow} (hp : l.Pairwise rowLt) {a b : IdeaRow}
    (ha : a ∈ l) (hbm : b ∈ l) (hid : a.id = b.id) : a = b := by
  induction l with
  | nil => cases ha
  | cons c t ih =>
    obtain ⟨hc, ht⟩ := List.pairwise_cons.1 hp
    rcases List.mem_cons.1 ha with rfl | ha'
    · rcases List.mem_cons.1 hbm with rfl | hb'
      · rfl
      · exact absurd hid (Nat.ne_of_lt (hc b hb').1)
    · rcases List.mem_cons.1 hbm with rfl | hb'
      · exact absurd hid.symm (Nat.ne_of_lt (hc a ha').1)
      · exact ih ht ha' hb'

theorem insertionSort_pending_eq (db : DB) (hp : db.ideas.Pairwise rowLt) :
    List.insertionSort createdLe (db.ideas.filter (fun r => r.content_generated == false))
      = db.ideas.filter (fun r => r.content_generated == false) := by
  apply List.Sorted.insertionSort_eq
  exact (List.Pairwise.sublist (List.filter_sublist _) hp).imp fun h => h.2

theorem get_pending_none_eq (db : DB) (hp : db.ideas.Pairwise rowLt) :
    get_pending_ideas db none = db.ideas.filter (fun r => r.content_generated == false) := by
  simp only [get_pending_ideas, insertionSort_pending_eq db hp]

theorem get_pending_pos_eq (db : DB) (hp : db.ideas.Pairwise rowLt) {K : Int} (hK : 1 ≤ K) :
    get_pending_ideas db (some K)
      = (db.ideas.filter (fun r => r.content_generated == false)).take K.toNat := by
  have h0 : K ≠ 0 := by omega
  have h1 : ¬ K < 0 := by omega
  simp only [get_pending_ideas, insertionSort_pending_eq db hp, sqlLimit, if_neg h1, if_pos h0]

theorem get_pending_sublist (db : DB) (hp : db.ideas.Pairwise rowLt) (limit : Option Int) :
    List.Sublist (get_pending_ideas db limit)
      (db.ideas.filter (fun r => r.content_generated == false)) := by
  cases limit with
  | none => rw [get_pending_none_eq db hp]
  | some n =>
    simp only [get_pending_ideas, insertionSort_pending_eq db hp, sqlLimit]
    split
    · split
      · exact List.Sublist.refl _
      · exact List.take_sublist _ _
    · exact List.Sublist.refl _

/-- Content-consistency invariant of the described flow: a flagged idea has
exactly one content row, a pending idea has none, and no content row points
at or beyond the AUTOINCREMENT frontier of the ideas table. -/
def CInv (db : DB) : Prop :=
  (∀ r ∈ db.ideas, contentCountFor db r.id = if r.content_generated then 1 else 0)
  ∧ (∀ c ∈ db.contents, c.idea_id < db.nextIdeaId)

theorem cInv_initDB : CInv initDB := by
  constructor <;> simp [initDB]

theorem cInv_step (db : DB) (op : Op) (hd : DBInv db) (hc : CInv db)
    (hok : okOp db op = true) : CInv (step db op) := by
  obtain ⟨hp, hb, -⟩ := hd
  obtain ⟨hcnt, hlt⟩ := hc
  cases op with
  | addIdea t d =>
    by_cases hdup : db.ideas.any (fun r => r.topic == pyStrip t) = true
    · simp only [step, add_idea_of_dup d hdup]
      exact ⟨hcnt, hlt⟩
    · rw [Bool.not_eq_true] at hdup
      simp only [step, add_idea_of_new d hdup]
      constructor
      · intro r hr
        rcases List.mem_append.1 hr with hr' | hr'
        · exact hcnt r hr'
        · rcases List.mem_singleton.1 hr' with rfl
          simp only [contentCountFor]
          have : db.contents.filter (fun c => c.idea_id == db.nextIdeaId) = [] := by
            rw [List.filter_eq_nil_iff]
            intro c hcm
            simpa using Nat.ne_of_lt (hlt c hcm)
          simp [this]
      · intro c hcm
        exact Nat.lt_succ_of_lt (hlt c hcm)
  | addContent i t c =>
    simp only [okOp, List.any_eq_true] at hok
    obtain ⟨r0, hr0, hok0⟩ := hok
    rw [Bool.and_eq_true, beq_iff_eq, beq_iff_eq] at hok0
    obtain ⟨hid0, hflag0⟩ := hok0
    constructor
    · intro x hx
      rcases List.mem_map.1 hx with ⟨r, hr, rfl⟩
      rw [flagSet_id i r]
      have hcount : contentCountFor (step db (Op.addContent i t c)) r.id
          = contentCountFor db r.id + (if i == r.id then 1 else 0) := by
        simp only [step, add_content, contentCountFor, List.filter_append]
        by_cases hir : (i == r.id) = true
        · simp [List.filter, hir]
        · rw [Bool.not_eq_true] at hir
          simp [List.filter, hir]
      by_cases hri : r.id = i
      · have hr0eq : r = r0 := row_eq_of_id_eq hp hr hr0 (hri.trans hid0.symm)
        have hflagr : r.content_generated = false := by rw [hr0eq]; exact hflag0
        have h0 : contentCountFor db r.id = 0 := by
          have := hcnt r hr
          rwa [hflagr, if_neg Bool.false_ne_true] at this
        rw [hcount, h0, if_pos (by simpa using hri.symm)]
        simp [hri]
      · rw [hcount]
        have hci : (i == r.id) = false := by
          simpa using fun he => hri he.symm
        rw [hci]
        simp only [if_neg Bool.false_ne_true]
        have hfr : (if r.id = i then { r with content_generated := true } else r) = r :=
          if_neg hri
        rw [hfr]
        simpa using hcnt r hr
    · intro x hx
      simp only [step, add_content] at hx
      rcases List.mem_append.1 hx with hx' | hx'
      · exact hlt x hx'
      · rcases List.mem_singleton.1 hx' with rfl
        exact hid0 ▸ (hb r0 hr0).1
  | tick dt =>
    exact ⟨hcnt, hlt⟩

theorem cInv_trace (db : DB) (ops : List Op) (hd : DBInv db) (hc : CInv db)
    (h : WFTrace db ops = true) : CInv (applyOps db ops) := by
  induction ops generalizing db with
  | nil => exact hc
  | cons op rest ih =>
    rw [WFTrace, Bool.and_eq_true] at h
    exact ih (step db op) (dbInv_step db op hd) (cInv_step db op hd hc h.1) h.2

/-- Idea `i` exists in the store with its content flag set. -/
def flaggedDone (db : DB) (i : Nat) : Prop :=
  ∃ r ∈ db.ideas, r.id = i ∧ r.content_generated = true

theorem flaggedDone_step (db : DB) (op : Op) (i : Nat) (h : flaggedDone db i) :
    flaggedDone (step db op) i := by
  obtain ⟨r, hr, hid, hflag⟩ := h
  cases op with
  | addIdea t d =>
    by_cases hdup : db.ideas.any (fun x => x.topic == pyStrip t) = true
    · rw [step, add_idea_of_dup d hdup]
      exact ⟨r, hr, hid, hflag⟩
    · rw [Bool.not_eq_true] at hdup
      rw [step, add_idea_of_new d hdup]
      exact ⟨r, List.mem_append_left _ hr, hid, hflag⟩
  | addContent j t c =>
    refine ⟨if r.id = j then { r with content_generated := true } else r,
      List.mem_map_of_mem _ hr, ?_, ?_⟩
    · rw [flagSet_id j r]; exact hid
    · split <;> simp [hflag]
  | tick dt =>
    exact ⟨r, hr, hid, hflag⟩

theorem flaggedDone_applyOps (db : DB) (ops : List Op) (i : Nat) (h : flaggedDone db i) :
    flaggedDone (applyOps db ops) i := by
  induction ops generalizing db with
  | nil => exact h
  | cons op rest ih => exact ih (step db op) (flaggedDone_step db op i h)

theorem flagged_not_pending (db : DB) (hp : db.ideas.Pairwise rowLt) (i : Nat)
    (hf : flaggedDone db i) :
    i ∉ (get_pending_ideas db none).map (fun r => r.id) := by
  rw [get_pending_none_eq db hp]
  intro hmem
  obtain ⟨r, hr, hid⟩ := List.mem_map.1 hmem
  obtain ⟨hri, hrfl⟩ := List.mem_filter.1 hr
  obtain ⟨r0, hr0, hid0, hflag0⟩ := hf
  have heq : r = r0 := row_eq_of_id_eq hp hri hr0 (by rw [hid, hid0])
  rw [heq, hflag0] at hrfl
  simp at hrfl

/-! ### Claim theorems -/

/-- C1 (amended): for every positive limit K and every reachable database
state, `get_pending_ideas(K)` returns at most K ideas, all with
`content_generated = false`, in ascending (non-strict) creation-time order,
oldest first.  Both restrictions are forced by the counterexample: the
Python guard `if limit:` treats a limit of 0 as "no limit", and
`CURRENT_TIMESTAMP` has second granularity, so two inserts committing in
the same second share a `created_at` value and only non-strict order is
guaranteed. -/
theorem getPendingIdeas_limit_spec (ops : List Op) (K : Int) (hK : 1 ≤ K) :
    ((get_pending_ideas (applyOps initDB ops) (some K)).length ≤ K.toNat)
    ∧ (∀ r ∈ get_pending_ideas (applyOps initDB ops) (some K), r.content_generated = false)
    ∧ List.Chain' (fun a b => a.created_at ≤ b.created_at)
        (get_pending_ideas (applyOps initDB ops) (some K)) := by
  obtain ⟨hp, -, -⟩ := dbInv_applyOps initDB ops dbInv_initDB
  refine ⟨?_, ?_, ?_⟩
  · rw [get_pending_pos_eq _ hp hK]
    exact List.length_take_le _ _
  · intro r hr
    have hm := List.Sublist.subset (get_pending_sublist _ hp (some K)) hr
    simpa using (List.mem_filter.1 hm).2
  · apply List.Pairwise.chain'
    have hfil : ((applyOps initDB ops).ideas.filter
        (fun r => r.content_generated == false)).Pairwise rowLt :=
      List.Pairwise.sublist (List.filter_sublist _) hp
    exact (List.Pairwise.sublist (get_pending_sublist _ hp (some K)) hfil).imp fun h => h.2

/-- Witness for C1: two pending ideas inserted one second apart, limit 2. -/
theorem getPendingIdeas_limit_spec_witness :
    (1 : Int) ≤ 2
    ∧ (((get_pending_ideas
          (applyOps initDB [Op.addIdea "Sorting" "", Op.tick 1, Op.addIdea "Graphs" ""])
          (some 2)).length ≤ (2 : Int).toNat)
      ∧ (∀ r ∈ get_pending_ideas
            (applyOps initDB [Op.addIdea "Sorting" "", Op.tick 1, Op.addIdea "Graphs" ""])
            (some 2), r.content_generated = false)
      ∧ List.Chain' (fun a b => a.created_at ≤ b.created_at)
          (get_pending_ideas
            (applyOps initDB [Op.addIdea "Sorting" "", Op.tick 1, Op.addIdea "Graphs" ""])
            (some 2))) :=
  ⟨by decide,
   getPendingIdeas_limit_spec [Op.addIdea "Sorting" "", Op.tick 1, Op.addIdea "Graphs" ""] 2
     (by decide)⟩

/-- C1 counterexample, refuting both parts of the original claim.  First, a
database holding one pending idea, queried with limit K = 0: because
`if limit:` is false for 0, no LIMIT clause is added and the query returns
1 row, more than K = 0.  Second, two ideas inserted within the same second
(no clock advance between the commits) share their `created_at`, so the
pending list is not strictly ascending in creation time. -/
theorem getPendingIdeas_limit_zero_cex :
    ¬ ((get_pending_ideas (applyOps initDB [Op.addIdea "Sorting" ""]) (some 0)).length
        ≤ (0 : Int).toNat)
    ∧ ¬ List.Chain' (fun a b => a.created_at < b.created_at)
        (get_pending_ideas (applyOps initDB [Op.addIdea "Sorting" "", Op.addIdea "Graphs" ""])
          (some 2)) := by
  constructor
  · decide
  · intro hch
    have hlist : get_pending_ideas
        (applyOps initDB [Op.addIdea "Sorting" "", Op.addIdea "Graphs" ""]) (some 2)
        = [⟨1, "Sorting", "", 0, false⟩, ⟨2, "Graphs", "", 0, false⟩] := by decide
    rw [hlist] at hch
    simp [List.chain'_cons] at hch

/-- C3: `add_content` is atomic.  In every store state observable in the
described flow (a well-formed trace: `add_content` is only invoked on ids of
existing, still-pending ideas, which is how `generate_and_store_content`
uses it), no idea simultaneously has a persisted content row and
`content_generated = false`, nor the reverse: a flagged idea has exactly one
content row and a pending idea has none.  Moreover, once an idea is flagged
— which is precisely the state `add_content` leaves it in — it stays flagged
and never again appears in `get_pending_ideas()` after ANY further sequence
of store operations, well-formed or not. -/
theorem addContent_atomic (ops : List Op) (h : WFTrace initDB ops = true) :
    (∀ r ∈ (applyOps initDB ops).ideas,
      contentCountFor (applyOps initDB ops) r.id = if r.content_generated then 1 else 0)
    ∧ (∀ i, flaggedDone (applyOps initDB ops) i →
        ∀ more : List Op,
          flaggedDone (applyOps initDB (ops ++ more)) i
          ∧ i ∉ (get_pending_ideas (applyOps initDB (ops ++ more)) none).map
              (fun r => r.id)) := by
  constructor
  · exact (cInv_trace initDB ops dbInv_initDB cInv_initDB h).1
  · intro i hf more
    have happ : applyOps initDB (ops ++ more) = applyOps (applyOps initDB ops) more := by
      simp [applyOps, List.foldl_append]
    have hf2 : flaggedDone (applyOps initDB (ops ++ more)) i := by
      rw [happ]
      exact flaggedDone_applyOps _ more i hf
    refine ⟨hf2, ?_⟩
    obtain ⟨hp2, -, -⟩ := dbInv_applyOps initDB (ops ++ more) dbInv_initDB
    exact flagged_not_pending _ hp2 i hf2

/-- Witness for C3: insert one idea, then generate its content; the
well-formedness hypothesis is discharged by evaluation. -/
theorem addContent_atomic_witness :
    WFTrace initDB [Op.addIdea "Sorting" "", Op.addContent 1 "T" "B"] = true
    ∧ (∀ r ∈ (applyOps initDB [Op.addIdea "Sorting" "", Op.addContent 1 "T" "B"]).ideas,
        contentCountFor (applyOps initDB [Op.addIdea "Sorting" "", Op.addContent 1 "T" "B"]) r.id
          = if r.content_generated then 1 else 0) :=
  ⟨by decide,
   (addContent_atomic [Op.addIdea "Sorting" "", Op.addContent 1 "T" "B"] (by decide)).1⟩

/-- C2: the claim says `add_content` with a nonexistent `ideaId` fails rather
than creating an orphan Content record.  The schema does declare the foreign
key, but the sqlite3 connections never execute `PRAGMA foreign_keys = ON`,
and SQLite ships with foreign-key enforcement disabled, so the declared
constraint is inert: on an empty store, `add_content(42, ...)` succeeds,
returns rowid 1 and leaves an orphan content row referencing the nonexistent
idea 42. -/
theorem addContent_orphan_demo :
    (add_content initDB 42 "Title" "Body").2.ideas = []
    ∧ ((add_content initDB 42 "Title" "Body").2.contents.map fun c => c.idea_id) = [42]
    ∧ (add_content initDB 42 "Title" "Body").1 = 1 := by
  decide

/-- An oracle that always raises. -/
def oracleErr : Oracle := fun _ _ => Except.error "boom"

/-- C4: the similarity check fails open.  For every candidate and every
non-empty existing-topics list, an oracle error makes `is_similar_topic`
return `false`; consequently the pipeline accepts the candidate — when the
exact-match tier also passes, `processCandidate` inserts it and bumps
`new_count`, leaving `duplicate_count` untouched. -/
theorem similarity_fail_open (oracle : Oracle) (s : BatchState) (raw : RawIdea) (e : String)
    (hne : s.existing ≠ [])
    (herr : oracle (pyStrip (raw.topic?.getD "")) s.existing = Except.error e)
    (ht : pyStrip (raw.topic?.getD "") ≠ "")
    (hnew : idea_exists s.db (pyStrip (raw.topic?.getD "")) = false)
    (hid : 1 ≤ s.db.nextIdeaId) :
    is_similar_topic oracle (pyStrip (raw.topic?.getD "")) s.existing = false
    ∧ (processCandidate oracle s raw).newCount = s.newCount + 1
    ∧ (processCandidate oracle s raw).dupCount = s.dupCount := by
  have hie : s.existing.isEmpty = false := by
    simpa using hne
  have hsim : is_similar_topic oracle (pyStrip (raw.topic?.getD "")) s.existing = false := by
    simp [is_similar_topic, hie, herr]
  have htb : (pyStrip (raw.topic?.getD "") == "") = false := by
    simpa using ht
  have hany : s.db.ideas.any (fun r => r.topic == pyStrip (pyStrip (raw.topic?.getD ""))) = false := by
    unfold idea_exists at hnew
    exact hnew
  have hnz : (s.db.nextIdeaId != 0) = true := by
    simpa using Nat.pos_iff_ne_zero.1 hid
  refine ⟨hsim, ?_, ?_⟩ <;>
    simp [processCandidate, htb, hnew, hsim,
      add_idea_of_new (pyStrip (raw.description?.getD "")) hany,
      handleInsertResult, pyTruthyId, hnz]

/-- Witness for C4: an always-raising oracle, one existing topic, a fresh
candidate on an empty store. -/
theorem similarity_fail_open_witness :
    oracleErr (pyStrip ((⟨some "Fresh", none⟩ : RawIdea).topic?.getD ""))
        (BatchState.existing ⟨initDB, ["Existing"], 0, 0⟩) = Except.error "boom"
    ∧ (is_similar_topic oracleErr (pyStrip ((⟨some "Fresh", none⟩ : RawIdea).topic?.getD ""))
          (BatchState.existing ⟨initDB, ["Existing"], 0, 0⟩) = false
      ∧ (processCandidate oracleErr ⟨initDB, ["Existing"], 0, 0⟩ ⟨some "Fresh", none⟩).newCount
          = (BatchState.newCount ⟨initDB, ["Existing"], 0, 0⟩) + 1
      ∧ (processCandidate oracleErr ⟨initDB, ["Existing"], 0, 0⟩ ⟨some "Fresh", none⟩).dupCount
          = BatchState.dupCount ⟨initDB, ["Existing"], 0, 0⟩) :=
  ⟨rfl,
   similarity_fail_open oracleErr ⟨initDB, ["Existing"], 0, 0⟩ ⟨some "Fresh", none⟩ "boom"
     (by decide) rfl (by decide) (by decide) (by decide)⟩

/-- C6: the store's uniqueness constraint is the ultimate authority and its
violation is converted to the Duplicate outcome rather than an error.
`add_idea` returns `None` (instead of propagating `IntegrityError`) whenever
a row with the same stripped topic already exists — for ANY store state at
insert time, covering the race where the state changed after the exact-match
tier ran — and the pipeline's branch on that result (lines 101-108 of
`service.py`, embedded as `handleInsertResult`) turns `None` into
`duplicate_count + 1` without raising. -/
theorem uniquenessViolation_handling :
    (∀ (db : DB) (t d : String), idea_exists db t = true → add_idea db t d = (none, db))
    ∧ (∀ (s : BatchState) (topic : String) (db' : DB),
        handleInsertResult s topic none db'
          = { s with db := db', dupCount := s.dupCount + 1 }) := by
  constructor
  · intro db t d h
    unfold idea_exists at h
    exact add_idea_of_dup d h
  · intro s topic db'
    rfl

/-- Witness for C6: a store already holding "Graphs" rejects a second insert
with `None`, and the pipeline branch counts a duplicate. -/
theorem uniquenessViolation_handling_witness :
    idea_exists (add_idea initDB "Graphs" "").2 "Graphs" = true
    ∧ add_idea (add_idea initDB "Graphs" "").2 "Graphs" "again"
        = (none, (add_idea initDB "Graphs" "").2)
    ∧ handleInsertResult ⟨initDB, [], 0, 0⟩ "Graphs" none initDB
        = ⟨initDB, [], 0, 0 + 1⟩ :=
  ⟨by decide,
   uniquenessViolation_handling.1 (add_idea initDB "Graphs" "").2 "Graphs" "again" (by decide),
   uniquenessViolation_handling.2 ⟨initDB, [], 0, 0⟩ "Graphs" initDB⟩

/-- C7: once `add_idea(T)` succeeds with an id, `idea_exists(T)` is true and
a second `add_idea(T)` returns the DUPLICATE signal `None`, leaving the
store unchanged (no second row). -/
theorem addIdea_exists_then_dup (db : DB) (T d1 d2 : String)
    (h : (add_idea db T d1).1.isSome = true) :
    idea_exists (add_idea db T d1).2 T = true
    ∧ add_idea (add_idea db T d1).2 T d2 = (none, (add_idea db T d1).2) := by
  by_cases hdup : db.ideas.any (fun r => r.topic == pyStrip T) = true
  · rw [add_idea_of_dup d1 hdup] at h
    simp at h
  · rw [Bool.not_eq_true] at hdup
    have hstep := @add_idea_of_new db T d1 hdup
    have hex : idea_exists (add_idea db T d1).2 T = true := by
      rw [hstep]
      simp [idea_exists]
    refine ⟨hex, ?_⟩
    unfold idea_exists at hex
    exact add_idea_of_dup d2 hex

/-- Witness for C7: inserting "Graphs" into the fresh store. -/
theorem addIdea_exists_then_dup_witness :
    (add_idea initDB "Graphs" "a").1.isSome = true
    ∧ (idea_exists (add_idea initDB "Graphs" "a").2 "Graphs" = true
      ∧ add_idea (add_idea initDB "Graphs" "a").2 "Graphs" "b"
          = (none, (add_idea initDB "Graphs" "a").2)) :=
  ⟨by decide, addIdea_exists_then_dup initDB "Graphs" "a" "b" (by decide)⟩

/-- C9: with an empty existing-topics list `is_similar_topic` returns `false`
for EVERY oracle — the guard fires before the API call, so the verdict is
independent of the oracle and the first idea ever ingested is never subjected
to a semantic similarity check. -/
theorem isSimilarTopic_empty_no_oracle (oracle : Oracle) (t : String) :
    is_similar_topic oracle t [] = false := rfl

theorem processCandidate_existing (oracle : Oracle) (s : BatchState) (a : RawIdea) :
    ∃ acc, (processCandidate oracle s a).existing = s.existing ++ acc := by
  by_cases h1 : (pyStrip (a.topic?.getD "") == "") = true
  · exact ⟨[], by simp [processCandidate, h1]⟩
  · by_cases h2 : idea_exists s.db (pyStrip (a.topic?.getD "")) = true
    · exact ⟨[], by simp [processCandidate, h1, h2]⟩
    · by_cases h3 : is_similar_topic oracle (pyStrip (a.topic?.getD "")) s.existing = true
      · exact ⟨[], by simp [processCandidate, h1, h2, h3]⟩
      · by_cases h4 : pyTruthyId (add_idea s.db (pyStrip (a.topic?.getD ""))
            (pyStrip (a.description?.getD ""))).1 = true
        · exact ⟨[pyStrip (a.topic?.getD "")],
            by simp [processCandidate, handleInsertResult, h1, h2, h3, h4]⟩
        · exact ⟨[], by simp [processCandidate, handleInsertResult, h1, h2, h3, h4]⟩

theorem runBatch_existing (oracle : Oracle) (l : List RawIdea) (s : BatchState) :
    ∃ acc, (runBatch oracle s l).existing = s.existing ++ acc := by
  induction l generalizing s with
  | nil => exact ⟨[], by simp [runBatch]⟩
  | cons a t ih =>
    obtain ⟨acc1, h1⟩ := processCandidate_existing oracle s a
    obtain ⟨acc2, h2⟩ := ih (processCandidate oracle s a)
    refine ⟨acc1 ++ acc2, ?_⟩
    show (runBatch oracle (processCandidate oracle s a) t).existing = _
    rw [h2, h1, List.append_assoc]

theorem processCandidate_added_existing (oracle : Oracle) (s : BatchState) (a : RawIdea)
    (h : (processCandidate oracle s a).newCount = s.newCount + 1) :
    (processCandidate oracle s a).existing = s.existing ++ [pyStrip (a.topic?.getD "")] := by
  by_cases h1 : (pyStrip (a.topic?.getD "") == "") = true
  · simp [processCandidate, h1] at h
  · by_cases h2 : idea_exists s.db (pyStrip (a.topic?.getD "")) = true
    · simp [processCandidate, h1, h2] at h
    · by_cases h3 : is_similar_topic oracle (pyStrip (a.topic?.getD "")) s.existing = true
      · simp [processCandidate, h1, h2, h3] at h
      · by_cases h4 : pyTruthyId (add_idea s.db (pyStrip (a.topic?.getD ""))
            (pyStrip (a.description?.getD ""))).1 = true
        · simp [processCandidate, handleInsertResult, h1, h2, h3, h4]
        · simp [processCandidate, handleInsertResult, h1, h2, h3, h4] at h

theorem processCandidate_sim_dup (oracle : Oracle) (s : BatchState) (b : RawIdea)
    (ht : (pyStrip (b.topic?.getD "") == "") = false)
    (hex : idea_exists s.db (pyStrip (b.topic?.getD "")) = false)
    (hsim : is_similar_topic oracle (pyStrip (b.topic?.getD "")) s.existing = true) :
    processCandidate oracle s b = { s with dupCount := s.dupCount + 1 } := by
  simp [processCandidate, ht, hex, hsim]

/-- C5: within one batch, candidates are processed strictly in arrival order
and each similarity query sees every topic accepted earlier in the same
batch.  If candidate `a` was accepted at its step (its `new_count` went up),
then by the time any later candidate `b` is processed, `a`'s topic is in the
`existing_topics` list handed to the oracle; and if the oracle — queried
with exactly that list — deems `b` similar, `b` is classified as a
duplicate: the final state is the previous state with `duplicate_count + 1`,
so `b` is not inserted. -/
theorem batch_order_dedup (oracle : Oracle) (s0 : BatchState) (p1 p2 : List RawIdea)
    (a b : RawIdea)
    (hacc : (processCandidate oracle (runBatch oracle s0 p1) a).newCount
        = (runBatch oracle s0 p1).newCount + 1)
    (hb : (pyStrip (b.topic?.getD "") == "") = false)
    (hex : idea_exists (runBatch oracle s0 (p1 ++ [a] ++ p2)).db
        (pyStrip (b.topic?.getD "")) = false)
    (hsim : oracle (pyStrip (b.topic?.getD ""))
        (runBatch oracle s0 (p1 ++ [a] ++ p2)).existing = Except.ok true) :
    pyStrip (a.topic?.getD "") ∈ (runBatch oracle s0 (p1 ++ [a] ++ p2)).existing
    ∧ runBatch oracle s0 (p1 ++ [a] ++ p2 ++ [b])
        = { runBatch oracle s0 (p1 ++ [a] ++ p2) with
            dupCount := (runBatch oracle s0 (p1 ++ [a] ++ p2)).dupCount + 1 } := by
  have hsplit : runBatch oracle s0 (p1 ++ [a] ++ p2)
      = runBatch oracle (processCandidate oracle (runBatch oracle s0 p1) a) p2 := by
    simp [runBatch, List.foldl_append]
  have hmem0 : pyStrip (a.topic?.getD "")
      ∈ (processCandidate oracle (runBatch oracle s0 p1) a).existing := by
    rw [processCandidate_added_existing oracle _ a hacc]
    simp
  have hmem : pyStrip (a.topic?.getD "")
      ∈ (runBatch oracle s0 (p1 ++ [a] ++ p2)).existing := by
    rw [hsplit]
    obtain ⟨acc, hacc2⟩ :=
      runBatch_existing oracle p2 (processCandidate oracle (runBatch oracle s0 p1) a)
    rw [hacc2]
    exact List.mem_append_left _ hmem0
  have hne : (runBatch oracle s0 (p1 ++ [a] ++ p2)).existing.isEmpty = false := by
    simpa using List.ne_nil_of_mem hmem
  have hsimt : is_similar_topic oracle (pyStrip (b.topic?.getD ""))
      (runBatch oracle s0 (p1 ++ [a] ++ p2)).existing = true := by
    unfold is_similar_topic
    rw [hne, hsim]
    rfl
  refine ⟨hmem, ?_⟩
  have hlast : runBatch oracle s0 (p1 ++ [a] ++ p2 ++ [b])
      = processCandidate oracle (runBatch oracle s0 (p1 ++ [a] ++ p2)) b := by
    simp [runBatch, List.foldl_append]
  rw [hlast, processCandidate_sim_dup oracle _ b hb hex hsimt]

/-- A concrete oracle for the C5 witness: "Recursion II" is deemed similar
exactly when "Recursion" is already among the existing topics. -/
def oracleSim : Oracle :=
  fun t ex => Except.ok (t == "Recursion II" && ex.contains "Recursion")

/-- Witness for C5: a two-candidate batch on the fresh store; "Recursion" is
accepted first, then "Recursion II" is rejected because the oracle sees
"Recursion" in the list it is queried with. -/
theorem batch_order_dedup_witness :
    (processCandidate oracleSim (runBatch oracleSim ⟨initDB, [], 0, 0⟩ [])
        ⟨some "Recursion", some ""⟩).newCount
      = (runBatch oracleSim ⟨initDB, [], 0, 0⟩ []).newCount + 1
    ∧ (pyStrip ((⟨some "Recursion II", none⟩ : RawIdea).topic?.getD "") == "") = false
    ∧ idea_exists (runBatch oracleSim ⟨initDB, [], 0, 0⟩
          ([] ++ [⟨some "Recursion", some ""⟩] ++ [])).db
        (pyStrip ((⟨some "Recursion II", none⟩ : RawIdea).topic?.getD "")) = false
    ∧ oracleSim (pyStrip ((⟨some "Recursion II", none⟩ : RawIdea).topic?.getD ""))
        (runBatch oracleSim ⟨initDB, [], 0, 0⟩
          ([] ++ [⟨some "Recursion", some ""⟩] ++ [])).existing = Except.ok true
    ∧ (pyStrip ((⟨some "Recursion", some ""⟩ : RawIdea).topic?.getD "")
        ∈ (runBatch oracleSim ⟨initDB, [], 0, 0⟩
            ([] ++ [⟨some "Recursion", some ""⟩] ++ [])).existing
      ∧ runBatch oracleSim ⟨initDB, [], 0, 0⟩
            ([] ++ [⟨some "Recursion", some ""⟩] ++ [] ++ [⟨some "Recursion II", none⟩])
          = { runBatch oracleSim ⟨initDB, [], 0, 0⟩
                ([] ++ [⟨some "Recursion", some ""⟩] ++ []) with
              dupCount := (runBatch oracleSim ⟨initDB, [], 0, 0⟩
                  ([] ++ [⟨some "Recursion", some ""⟩] ++ [])).dupCount + 1 }) :=
  ⟨by decide, by decide, by decide, by rfl,
   batch_order_dedup oracleSim ⟨initDB, [], 0, 0⟩ [] []
     ⟨some "Recursion", some ""⟩ ⟨some "Recursion II", none⟩
     (by decide) (by decide) (by decide) (by rfl)⟩

/-- Idea `i` exists in the store and is still pending. -/
def hasPendingRow (db : DB) (i : Nat) : Prop :=
  ∃ r ∈ db.ideas, r.id = i ∧ r.content_generated = false

theorem processPending_pres (backend : ArticleBackend) (acc : DB × Nat) (q : IdeaRow)
    (i : Nat) (hq : q.id ≠ i) :
    (hasPendingRow acc.1 i → hasPendingRow (processPending backend acc q).1 i)
    ∧ contentCountFor (processPending backend acc q).1 i = contentCountFor acc.1 i := by
  unfold processPending
  cases hbk : backend q.topic q.description with
  | none => exact ⟨id, rfl⟩
  | some tc =>
    constructor
    · rintro ⟨r, hr, hid, hflag⟩
      have hfr : (if r.id = q.id then { r with content_generated := true } else r) = r :=
        if_neg (by rw [hid]; exact fun h => hq h.symm)
      have hmm : (if r.id = q.id then { r with content_generated := true } else r)
          ∈ (add_content acc.1 q.id tc.1 tc.2).2.ideas :=
        List.mem_map_of_mem _ hr
      rw [hfr] at hmm
      exact ⟨r, hmm, hid, hflag⟩
    · have hqi : (q.id == i) = false := by simpa using hq
      simp [add_content, contentCountFor, List.filter_append, hqi]

theorem foldPending_pres (backend : ArticleBackend) (l : List IdeaRow) (acc : DB × Nat)
    (i : Nat) (hl : ∀ q ∈ l, q.id ≠ i) :
    (hasPendingRow acc.1 i → hasPendingRow (l.foldl (processPending backend) acc).1 i)
    ∧ contentCountFor (l.foldl (processPending backend) acc).1 i = contentCountFor acc.1 i := by
  induction l generalizing acc with
  | nil => exact ⟨id, rfl⟩
  | cons q t ih =>
    have hstep := processPending_pres backend acc q i (hl q (List.mem_cons_self q t))
    have hrest := ih (processPending backend acc q) fun x hx => hl x (List.mem_cons_of_mem q hx)
    exact ⟨fun h => hrest.1 (hstep.1 h), hrest.2.trans hstep.2⟩

theorem foldPending_all_none (backend : ArticleBackend) (l : List IdeaRow) (acc : DB × Nat)
    (h : ∀ q ∈ l, backend q.topic q.description = none) :
    l.foldl (processPending backend) acc = acc := by
  induction l generalizing acc with
  | nil => rfl
  | cons q t ih =>
    have hstep : processPending backend acc q = acc := by
      unfold processPending
      rw [h q (List.mem_cons_self q t)]
    show List.foldl (processPending backend) (processPending backend acc q) t = acc
    rw [hstep, ih acc fun x hx => h x (List.mem_cons_of_mem q hx)]

/-- C8: when article generation fails for a pending idea (the backend returns
`None`), `generate_and_store_content` leaves the store unchanged for that
idea: it still has a pending row, it reappears in `get_pending_ideas()`
(ready for a future cycle), and the number of content rows referencing it is
unchanged.  When generation fails for every idea of the batch, the whole
call returns the store unchanged with `generated_count = 0`, so the stats
are unchanged too.  (The embedding is a total function: no exception is
raised.) -/
theorem contentFailure_leaves_pending (ops : List Op) (backend : ArticleBackend)
    (lim : Option Int) :
    ((∀ r ∈ get_pending_ideas (applyOps initDB ops) lim,
        backend r.topic r.description = none) →
      generate_and_store_content backend (applyOps initDB ops) lim = (applyOps initDB ops, 0)
      ∧ get_stats (generate_and_store_content backend (applyOps initDB ops) lim).1
          = get_stats (applyOps initDB ops))
    ∧ (∀ r ∈ get_pending_ideas (applyOps initDB ops) lim,
        backend r.topic r.description = none →
          r.id ∈ ((get_pending_ideas
              (generate_and_store_content backend (applyOps initDB ops) lim).1 none).map
                (fun x => x.id))
          ∧ contentCountFor (generate_and_store_content backend (applyOps initDB ops) lim).1 r.id
            = contentCountFor (applyOps initDB ops) r.id) := by
  obtain ⟨hp, -, -⟩ := dbInv_applyOps initDB ops dbInv_initDB
  constructor
  · intro hall
    have hcall : generate_and_store_content backend (applyOps initDB ops) lim
        = (applyOps initDB ops, 0) := by
      by_cases hpe : (get_pending_ideas (applyOps initDB ops) lim).isEmpty = true
      · simp [generate_and_store_content, hpe]
      · simp [generate_and_store_content, hpe,
          foldPending_all_none backend _ _ hall]
    exact ⟨hcall, by rw [hcall]⟩
  · intro r hr hbk
    have hpend : (get_pending_ideas (applyOps initDB ops) lim).Pairwise rowLt := by
      have hfil : ((applyOps initDB ops).ideas.filter
          (fun x => x.content_generated == false)).Pairwise rowLt :=
        List.Pairwise.sublist (List.filter_sublist _) hp
      exact List.Pairwise.sublist (get_pending_sublist _ hp lim) hfil
    obtain ⟨u, v, huv⟩ := List.append_of_mem hr
    have hids : (∀ q ∈ u, q.id ≠ r.id) ∧ (∀ q ∈ v, q.id ≠ r.id) := by
      rw [huv] at hpend
      obtain ⟨hu, hrv, hcross⟩ := List.pairwise_append.1 hpend
      obtain ⟨hrvhead, -⟩ := List.pairwise_cons.1 hrv
      constructor
      · intro q hq
        exact Nat.ne_of_lt (hcross q hq r (List.mem_cons_self r v)).1
      · intro q hq
        exact (Nat.ne_of_lt (hrvhead q hq).1).symm
    have hne : (get_pending_ideas (applyOps initDB ops) lim).isEmpty = false := by
      simpa using List.ne_nil_of_mem hr
    have hrmem : r ∈ (applyOps initDB ops).ideas ∧ (r.content_generated == false) = true := by
      have hm := List.Sublist.subset (get_pending_sublist _ hp lim) hr
      exact List.mem_filter.1 hm
    have hstart : hasPendingRow (applyOps initDB ops) r.id :=
      ⟨r, hrmem.1, rfl, by simpa using hrmem.2⟩
    have hcall : generate_and_store_content backend (applyOps initDB ops) lim
        = List.foldl (processPending backend) (applyOps initDB ops, 0)
            (get_pending_ideas (applyOps initDB ops) lim) := by
      simp [generate_and_store_content, hne]
    have hfoldu := foldPending_pres backend u ((applyOps initDB ops), 0) r.id hids.1
    have hstepr : processPending backend
        (u.foldl (processPending backend) ((applyOps initDB ops), 0)) r
        = u.foldl (processPending backend) ((applyOps initDB ops), 0) := by
      unfold processPending
      rw [hbk]
    have hfoldv := foldPending_pres backend v
      (u.foldl (processPending backend) ((applyOps initDB ops), 0)) r.id hids.2
    have hfold : List.foldl (processPending backend) ((applyOps initDB ops), 0)
        (get_pending_ideas (applyOps initDB ops) lim)
        = v.foldl (processPending backend)
            (u.foldl (processPending backend) ((applyOps initDB ops), 0)) := by
      rw [huv, List.foldl_append]
      show List.foldl (processPending backend)
          (processPending backend (u.foldl (processPending backend) _) r) v = _
      rw [hstepr]
    have hhas : hasPendingRow (generate_and_store_content backend (applyOps initDB ops) lim).1
        r.id := by
      rw [hcall, hfold]
      exact hfoldv.1 (hfoldu.1 hstart)
    constructor
    · obtain ⟨r2, hr2, hid2, hflag2⟩ := hhas
      refine List.mem_map.2 ⟨r2, ?_, hid2⟩
      show r2 ∈ List.insertionSort createdLe _
      rw [List.mem_insertionSort]
      exact List.mem_filter.2 ⟨hr2, by simp [hflag2]⟩
    · rw [hcall, hfold]
      exact hfoldv.2.trans hfoldu.2

/-- Witness for C8: one pending idea and a backend that always fails. -/
theorem contentFailure_leaves_pending_witness :
    ((∀ r ∈ get_pending_ideas (applyOps initDB [Op.addIdea "Sorting" ""]) (some 3),
        (fun _ _ => (none : Option (String × String))) r.topic r.description = none) →
      generate_and_store_content (fun _ _ => none) (applyOps initDB [Op.addIdea "Sorting" ""])
          (some 3)
        = (applyOps initDB [Op.addIdea "Sorting" ""], 0)
      ∧ get_stats (generate_and_store_content (fun _ _ => none)
            (applyOps initDB [Op.addIdea "Sorting" ""]) (some 3)).1
          = get_stats (applyOps initDB [Op.addIdea "Sorting" ""]))
    ∧ ((∀ r ∈ get_pending_ideas (applyOps initDB [Op.addIdea "Sorting" ""]) (some 3),
        (fun _ _ => (none : Option (String × String))) r.topic r.description = none)
      ∧ (∀ r ∈ get_pending_ideas (applyOps initDB [Op.addIdea "Sorting" ""]) (some 3),
          (fun _ _ => (none : Option (String × String))) r.topic r.description = none →
            r.id ∈ ((get_pending_ideas
                (generate_and_store_content (fun _ _ => none)
                  (applyOps initDB [Op.addIdea "Sorting" ""]) (some 3)).1 none).map
                  (fun x => x.id))
            ∧ contentCountFor (generate_and_store_content (fun _ _ => none)
                  (applyOps initDB [Op.addIdea "Sorting" ""]) (some 3)).1 r.id
              = contentCountFor (applyOps initDB [Op.addIdea "Sorting" ""]) r.id)) :=
  ⟨(contentFailure_leaves_pending [Op.addIdea "Sorting" ""] (fun _ _ => none) (some 3)).1,
   fun _ _ => rfl,
   (contentFailure_leaves_pending [Op.addIdea "Sorting" ""] (fun _ _ => none) (some 3)).2⟩

/-- C10 counterexample: `generate_ideas` with requested count N = -1 on a
backend response holding two ideas returns one idea, which is not "at most
N" and not "the first N": Python `ideas[:-1]` drops from the end instead. -/
theorem generateIdeas_neg_count_cex :
    ¬ (((generate_ideas (IdeasResponse.arr
        [⟨some "A", none⟩, ⟨some "B", none⟩]) (-1)).length : Int) ≤ (-1 : Int)) := by
  decide

/-- C10 (amended): for every requested count N ≥ 0, `generate_ideas` returns
at most N ideas, and on an array response it returns exactly the first N.
The restriction to N ≥ 0 is forced by the counterexample: a negative N makes
the Python slice `ideas[:count]` drop entries from the end instead. -/
theorem generateIdeas_truncates (resp : IdeasResponse) (n : Int) (hn : 0 ≤ n) :
    (generate_ideas resp n).length ≤ n.toNat
    ∧ ∀ items : List RawIdea,
        generate_ideas (IdeasResponse.arr items) n = items.take n.toNat := by
  constructor
  · cases resp <;> simp [generate_ideas, pySliceTo, hn, List.length_take]
  · intro items
    simp [generate_ideas, pySliceTo, hn]

/-- Witness for C10: requested count 1 on a two-element array response. -/
theorem generateIdeas_truncates_witness :
    (0 : Int) ≤ 1
    ∧ ((generate_ideas (IdeasResponse.arr [⟨some "A", none⟩, ⟨some "B", none⟩]) 1).length
          ≤ (1 : Int).toNat
      ∧ ∀ items : List RawIdea,
          generate_ideas (IdeasResponse.arr items) 1 = items.take (1 : Int).toNat) :=
  ⟨by decide,
   generateIdeas_truncates (IdeasResponse.arr [⟨some "A", none⟩, ⟨some "B", none⟩]) 1 (by decide)⟩

end ContentGen
